import Mathlib

/-!
# dmsStorageService: upload / retrieve orchestration

A shallow embedding of the Go packages `pathrepository`, `pathservice`,
`storageservice`, `fileutils` and of `StorageController.Get`, followed by the
properties established about them.

Conventions of the embedding.

* A Go method with side effects becomes a function that takes the state it
  works on and returns the new state next to its results.  A Go result pair
  `(v, err)` becomes `(v, e)` with `e : Option GoError` (`none` is `nil`).
* `int64` identifiers are integers; no arithmetic is done on them.
* A byte is a natural number below 256.
* Calls on the injected `logging.Logger` have no result and never influence
  control flow; they are left out.
* The operating system is a flat table from path names to directories and
  regular files, together with the list of calls made on it.  Names are
  resolved literally and a stream handed to `Upload` is a value of its own,
  not a view of a file of that table.
-/

namespace DmsStorage

/-! ## Errors -/

/-- Modelled from the spec: package `internal/errs` is not among the sources.
Its three sentinel errors are the error kinds of the specification
(`InvalidInput`, `NotFound`, `Internal`), three distinct values that wrap
nothing. -/
inductive Sentinel
  | ErrInvalidInput
  | ErrNotFound
  | ErrinternalError
deriving DecidableEq, Repr

/-- Error numbers the operating-system model reports. -/
inductive Errno
  | ENOENT
  | EACCES
  | EISDIR
  | ENOTDIR
  | ESPIPE
deriving DecidableEq, Repr

/-- Go `error` values occurring in the program.  `wrapf pre inner post` is
`fmt.Errorf` with exactly one `%w` verb: `pre` and `post` are the rendered text
before and after the wrapped error.  `plainf` is `fmt.Errorf` or `errors.New`
without `%w`. -/
inductive GoError
  | sentinel (s : Sentinel)
  | wrapf (pre : String) (inner : GoError) (post : String)
  | plainf (msg : String)
  | eof
  | pathError (op : String) (path : String) (errno : Errno)
deriving DecidableEq, Repr

/-- Go `errors.Is(err, target)` for a sentinel target: follow the `Unwrap`
chain and compare each link with the target.  Only `fmt.Errorf` with `%w` has
an `Unwrap` leading to values of package `errs`. -/
def errors.Is : GoError → Sentinel → Bool
  | .sentinel s, target => decide (s = target)
  | .wrapf _ inner _, target => errors.Is inner target
  | .plainf _, _ => false
  | .eof, _ => false
  | .pathError _ _ _, _ => false

/-! ## pathrepository: the in-memory registry -/

/-- Go `map[int64]string`: the `buffer` of `memoryRepository`. -/
abbrev Buffer := Int → Option String

/-- Interface `pathrepository.PathRepository` over a state `σ`. -/
structure PathRepository (σ : Type) where
  SavePath : σ → Int → String → σ × Option GoError
  GetPath : σ → Int → σ × (String × Option GoError)
  Exists : σ → Int → σ × (Bool × Option GoError)

/-- `memoryRepository.Exists`: `_, exists := (*m.buffer)[id]; return exists, nil`. -/
def memoryRepository.Exists (m : Buffer) (id : Int) : Buffer × (Bool × Option GoError) :=
  (m, ((m id).isSome, none))

/-- `memoryRepository.SavePath`: `(*m.buffer)[id] = path; return nil`. -/
def memoryRepository.SavePath (m : Buffer) (id : Int) (path : String) :
    Buffer × Option GoError :=
  ((fun k => if k = id then some path else m k), none)

/-- `memoryRepository.GetPath`. -/
def memoryRepository.GetPath (m : Buffer) (id : Int) : Buffer × (String × Option GoError) :=
  match m id with
  | none =>
    let errMsg := "path with id " ++ toString id ++ " not found"
    (m, ("", some (.wrapf "" (.sentinel .ErrNotFound) (": " ++ errMsg))))
  | some path => (m, (path, none))

/-- `pathrepository.MemoryRepository`: the repository value (its buffer, the
state, starts as the empty map `emptyBuffer`). -/
def MemoryRepository : PathRepository Buffer :=
  { SavePath := memoryRepository.SavePath
    GetPath := memoryRepository.GetPath
    Exists := memoryRepository.Exists }

/-- The map `make(map[int64]string)`. -/
def emptyBuffer : Buffer := fun _ => none

/-! ## pathservice -/

/-- Interface `pathservice.PathService` over a state `σ`. -/
structure PathService (σ : Type) where
  SavePath : σ → Int → String → σ × Option GoError
  GetPath : σ → Int → σ × (String × Option GoError)
  Exists : σ → Int → σ × (Bool × Option GoError)

/-- `pathService.Exists`. -/
def pathService.Exists {σ : Type} (repo : PathRepository σ) (s : σ) (id : Int) :
    σ × (Bool × Option GoError) :=
  match repo.Exists s id with
  | (s1, (_, some err)) => (s1, (false, some err))
  | (s1, (ex, none)) => (s1, (ex, none))

/-- `pathService.SavePath`. -/
def pathService.SavePath {σ : Type} (repo : PathRepository σ) (s : σ) (id : Int)
    (path : String) : σ × Option GoError :=
  match repo.SavePath s id path with
  | (s1, some err) => (s1, some err)
  | (s1, none) => (s1, none)

/-- `pathService.GetPath`. -/
def pathService.GetPath {σ : Type} (repo : PathRepository σ) (s : σ) (id : Int) :
    σ × (String × Option GoError) :=
  match pathService.Exists repo s id with
  | (s1, (_, some err)) => (s1, ("", some err))
  | (s1, (false, none)) =>
    (s1, ("", some (.wrapf ("failed retrieving ID " ++ toString id ++ ": ")
      (.sentinel .ErrNotFound) "")))
  | (s1, (true, none)) =>
    match repo.GetPath s1 id with
    | (s2, (_, some err)) => (s2, ("", some err))
    | (s2, (path, none)) => (s2, (path, none))

/-- `pathservice.New`. -/
def pathservice.New {σ : Type} (repo : PathRepository σ) : PathService σ :=
  { SavePath := pathService.SavePath repo
    GetPath := pathService.GetPath repo
    Exists := pathService.Exists repo }

/-! ## path/filepath (Unix) -/

/-- Inner loop of the `..` case of `filepath.Clean`: starting from write index
`w`, step back while `w > dotdot` and `buf[w]` is no separator. -/
def filepath.backtrack (buf : List Char) (dotdot : Nat) : Nat → Nat
  | 0 => 0
  | w + 1 =>
    if w + 1 > dotdot ∧ buf.getD (w + 1) '/' ≠ '/' then filepath.backtrack buf dotdot w
    else w + 1

/-- Main loop of `filepath.Clean` (`for r < n`): `rest` is `path[r:]`, `out`
is the text written to the buffer so far (`out.w` is its length) and `dotdot`
the index where `..` must stop.  Every round consumes at least one character,
so a fuel above the length of the path is never exhausted. -/
def filepath.cleanLoop (rooted : Bool) : Nat → List Char → List Char → Nat → List Char
  | 0, _, out, _ => out
  | _ + 1, [], out, _ => out
  | fuel + 1, c :: rest, out, dotdot =>
    if c = '/' then
      -- empty path element
      filepath.cleanLoop rooted fuel rest out dotdot
    else if c = '.' ∧ (rest = [] ∨ rest.head? = some '/') then
      -- . element
      filepath.cleanLoop rooted fuel rest out dotdot
    else if c = '.' ∧ rest.head? = some '.' ∧
        (rest.tail = [] ∨ rest.tail.head? = some '/') then
      -- .. element: remove to last separator
      if out.length > dotdot then
        filepath.cleanLoop rooted fuel rest.tail
          (out.take (filepath.backtrack out dotdot (out.length - 1))) dotdot
      else if !rooted then
        let out1 := (if out.length > 0 then out ++ ['/'] else out) ++ ['.', '.']
        filepath.cleanLoop rooted fuel rest.tail out1 out1.length
      else
        filepath.cleanLoop rooted fuel rest.tail out dotdot
    else
      -- real path element: add slash if needed, copy element
      let out1 := if (rooted ∧ out.length ≠ 1) ∨ (!rooted ∧ out.length ≠ 0)
        then out ++ ['/'] else out
      filepath.cleanLoop rooted fuel ((c :: rest).dropWhile (fun x => x ≠ '/'))
        (out1 ++ (c :: rest).takeWhile (fun x => x ≠ '/')) dotdot

/-- Go `filepath.Clean` on Unix (no volume name, separator `/`). -/
def filepath.Clean (path : String) : String :=
  match path.data with
  | [] => "."
  | c :: rest =>
    let rooted := decide (c = '/')
    let out :=
      if rooted then filepath.cleanLoop rooted (rest.length + 1) rest ['/'] 1
      else filepath.cleanLoop rooted (rest.length + 2) (c :: rest) [] 0
    if out.length = 0 then "." else String.mk out

/-- Go `filepath.Join`: the elements from the first non-empty one on, joined by
the separator and cleaned; the empty string when every element is empty. -/
def filepath.Join : List String → String
  | [] => ""
  | e :: rest =>
    if e ≠ "" then filepath.Clean (String.intercalate "/" (e :: rest))
    else filepath.Join rest


/-! ## The operating system: files, handles, streams -/

/-- A byte: a natural number below 256. -/
abbrev Byte := Nat

/-- An entry of the file table: a directory, or a regular file with its bytes
and whether the process may open it (`readable = false`: permission denied). -/
inductive Node
  | dir
  | file (content : List Byte) (readable : Bool)
deriving DecidableEq, Repr

/-- Calls made on the operating system, as recorded in `FS.calls`. -/
inductive OsCall
  | stat (name : String)
  | open_ (name : String)
  | mkdirAll (path : String)
  | create (name : String)
  | write (name : String) (count : Nat)
  | close (name : String)
deriving DecidableEq, Repr

/-- The backing store: the table from names to nodes and the calls made so
far, oldest first. -/
structure FS where
  nodes : String → Option Node
  calls : List OsCall

/-- Bytes of the regular file at `name`, if there is one. -/
def FS.contentAt (fs : FS) (name : String) : Option (List Byte) :=
  match fs.nodes name with
  | some (.file content _) => some content
  | _ => none

/-- An `*os.File`: the name it was opened under, the bytes of the file behind
it, the read offset, and the errors its `Read` and `Seek` report (`none` for a
readable, seekable regular file). -/
structure File where
  name : String
  data : List Byte
  offset : Nat
  readFault : Option GoError
  seekFault : Option GoError
deriving DecidableEq, Repr

/-- The value `&os.File{}` returned next to an error. -/
def File.zero : File :=
  { name := "", data := [], offset := 0,
    readFault := some (.plainf "invalid argument"),
    seekFault := some (.plainf "invalid argument") }

/-- `(*os.File).Name`. -/
def File.Name (f : File) : String := f.name

/-- `(*os.File).Read` into a buffer of `len` bytes: the bytes delivered (their
number is Go's `n`), the error, and the handle afterwards.  A regular file
delivers all that is left up to `len`; at the end of the file `Read` reports
`io.EOF`. -/
def File.Read (f : File) (len : Nat) : (List Byte × Option GoError) × File :=
  match f.readFault with
  | some err => (([], some err), f)
  | none =>
    let chunk := (f.data.drop f.offset).take len
    if chunk.length = 0 ∧ 0 < len then (([], some .eof), f)
    else ((chunk, none), { f with offset := f.offset + chunk.length })

/-- `(*os.File).Seek(0, io.SeekStart)`. -/
def File.SeekStart (f : File) : Option GoError × File :=
  match f.seekFault with
  | some err => (some err, f)
  | none => (none, { f with offset := 0 })

/-- `io.ReadAll` on a handle: everything from the read offset to the end. -/
def File.ReadAll (f : File) : List Byte × Option GoError :=
  match f.readFault with
  | some err => ([], some err)
  | none => (f.data.drop f.offset, none)

/-- A `multipart.File` as `io.Reader`: the bytes it has yet to deliver and the
error its `Read` reports after them (`none`: it ends with `io.EOF`). -/
structure Stream where
  data : List Byte
  fault : Option GoError
deriving DecidableEq, Repr

/-- `os.Stat`, reduced to its error: `ENOENT` when nothing has the name. -/
def os.Stat (fs : FS) (name : String) : FS × Option GoError :=
  let fs1 := { fs with calls := fs.calls ++ [.stat name] }
  match fs.nodes name with
  | none => (fs1, some (.pathError "stat" name .ENOENT))
  | some _ => (fs1, none)

/-- `os.IsNotExist`. -/
def os.IsNotExist : Option GoError → Bool
  | some (.pathError _ _ .ENOENT) => true
  | _ => false

/-- `os.Open`: a directory opens (its `Read` then fails with `EISDIR`), a
regular file opens at offset 0 when the process may read it. -/
def os.Open (fs : FS) (name : String) : FS × (File × Option GoError) :=
  let fs1 := { fs with calls := fs.calls ++ [.open_ name] }
  match fs.nodes name with
  | none => (fs1, (File.zero, some (.pathError "open" name .ENOENT)))
  | some .dir =>
    (fs1, ({ name := name, data := [], offset := 0,
             readFault := some (.pathError "read" name .EISDIR), seekFault := none }, none))
  | some (.file content readable) =>
    if readable then
      (fs1, ({ name := name, data := content, offset := 0,
               readFault := none, seekFault := none }, none))
    else (fs1, (File.zero, some (.pathError "open" name .EACCES)))

/-- `os.MkdirAll`: nothing to do for a directory, `ENOTDIR` when a file has the
name, otherwise the directory is made. -/
def os.MkdirAll (fs : FS) (path : String) : FS × Option GoError :=
  let fs1 := { fs with calls := fs.calls ++ [.mkdirAll path] }
  match fs.nodes path with
  | some .dir => (fs1, none)
  | some (.file _ _) => (fs1, some (.pathError "mkdir" path .ENOTDIR))
  | none =>
    ({ fs1 with nodes := fun k => if k = path then some .dir else fs.nodes k }, none)

/-- `os.Create` (`O_RDWR|O_CREATE|O_TRUNC`): fails on a directory and on a file
the process may not open; otherwise the file exists afterwards and is empty. -/
def os.Create (fs : FS) (name : String) : FS × (File × Option GoError) :=
  let fs1 := { fs with calls := fs.calls ++ [.create name] }
  let made : FS × (File × Option GoError) :=
    ({ fs1 with nodes := fun k => if k = name then some (.file [] true) else fs.nodes k },
     ({ name := name, data := [], offset := 0, readFault := none, seekFault := none }, none))
  match fs.nodes name with
  | some .dir => (fs1, (File.zero, some (.pathError "open" name .EISDIR)))
  | some (.file _ readable) =>
    if readable then made else (fs1, (File.zero, some (.pathError "open" name .EACCES)))
  | none => made

/-- `io.Copy(dst, src)`: every byte `src` delivers is appended to the file
behind `dst`; the error is the one `src` ends with, if any. -/
def io.Copy (fs : FS) (dst : File) (src : Stream) : FS × Option GoError :=
  let fs1 := { fs with calls := fs.calls ++ [.write dst.name src.data.length] }
  let fs2 : FS :=
    match fs.nodes dst.name with
    | some (.file content readable) =>
      { fs1 with nodes := fun k =>
          if k = dst.name then some (.file (content ++ src.data) readable) else fs.nodes k }
    | _ => fs1
  (fs2, src.fault)

/-- `(*os.File).Close`, as run by `defer dst.Close()`. -/
def File.Close (fs : FS) (f : File) : FS :=
  { fs with calls := fs.calls ++ [.close f.name] }

/-! ## environment and storageservice -/

/-- Everything `storageService` works on: the state behind its path service,
the backing store, and the value of the environment variable `PROJECT_ROOT`. -/
structure World (σ : Type) where
  paths : σ
  fs : FS
  projectRoot : String

/-- `environment.GetProjectRoot`: `os.Getenv("PROJECT_ROOT")`. -/
def environment.GetProjectRoot {σ : Type} (w : World σ) : String := w.projectRoot

/-- `storageservice.UploadData`. -/
structure UploadData where
  File : Stream
  Filename : String
  Id : Int

/-- `storageService.storeFile`. -/
def storageService.storeFile {σ : Type} (w : World σ) (data : UploadData) :
    World σ × (String × Option GoError) :=
  let root := environment.GetProjectRoot w
  let dirPath := filepath.Join [root, "files"]
  match os.MkdirAll w.fs dirPath with
  | (fs1, some err) =>
    ({ w with fs := fs1 }, ("", some (.wrapf "failed to create directory: " err "")))
  | (fs1, none) =>
    match os.Create fs1 (filepath.Join [dirPath, data.Filename]) with
    | (fs2, (_, some err)) =>
      ({ w with fs := fs2 }, ("", some (.wrapf "failed to create file: " err "")))
    | (fs2, (dst, none)) =>
      match io.Copy fs2 dst data.File with
      | (fs3, some err) =>
        ({ w with fs := File.Close fs3 dst },
         ("", some (.wrapf "failed to write to file: " err "")))
      | (fs3, none) => ({ w with fs := File.Close fs3 dst }, (dst.Name, none))

/-- `storageService.Upload`. -/
def storageService.Upload {σ : Type} (pathsrv : PathService σ) (w : World σ)
    (data : UploadData) : World σ × Option GoError :=
  match pathsrv.Exists w.paths data.Id with
  | (s1, (_, some err)) => ({ w with paths := s1 }, some err)
  | (s1, (true, none)) =>
    ({ w with paths := s1 },
     some (.wrapf ("path with id " ++ toString data.Id ++ " already exists: ")
       (.sentinel .ErrInvalidInput) ""))
  | (s1, (false, none)) =>
    match storageService.storeFile { w with paths := s1 } data with
    | (w1, (_, some _)) =>
      (w1, some (.wrapf "error storing the file: " (.sentinel .ErrinternalError) ""))
    | (w1, (dest, none)) =>
      match pathsrv.SavePath w1.paths data.Id dest with
      | (s2, some err) =>
        -- TODO: Rollback file storage
        ({ w1 with paths := s2 }, some err)
      | (s2, none) => ({ w1 with paths := s2 }, none)

/-- `checkIfDoesntExist`. -/
def checkIfDoesntExist (fs : FS) (filePath : String) : FS × Bool :=
  match os.Stat fs filePath with
  | (fs1, err) => (fs1, os.IsNotExist err)

/-- `storageService.Get`. -/
def storageService.Get {σ : Type} (pathsrv : PathService σ) (w : World σ) (id : Int) :
    World σ × (File × Option GoError) :=
  match pathsrv.GetPath w.paths id with
  | (s1, (_, some err)) => ({ w with paths := s1 }, (File.zero, some err))
  | (s1, (filePath, none)) =>
    match checkIfDoesntExist w.fs filePath with
    | (fs1, true) =>
      ({ w with paths := s1, fs := fs1 },
       (File.zero,
        some (.plainf ("file with ID " ++ toString id ++ " can't be reached at its path"))))
    | (fs1, false) =>
      match os.Open fs1 filePath with
      | (fs2, (_, some _)) =>
        ({ w with paths := s1, fs := fs2 },
         (File.zero,
          some (.wrapf ("failed to open file with ID " ++ toString id ++ ": ")
            (.sentinel .ErrinternalError) "")))
      | (fs2, (file, none)) => ({ w with paths := s1, fs := fs2 }, (file, none))

/-- The path service of `main`: `pathservice.New` over the in-memory
repository. -/
def mainPathService : PathService Buffer := pathservice.New MemoryRepository


/-! ## net/http content sniffing (Go standard library, `net/http/sniff.go`) -/

/-- Bytes of an ASCII string literal. -/
def bytesOf (s : String) : List Byte := s.data.map Char.toNat

/-- The algorithm uses at most `sniffLen` bytes to make its decision. -/
def sniffLen : Nat := 512

/-- Whitespace bytes: tab, line feed, form feed, carriage return, space. -/
def isWS (b : Byte) : Bool :=
  b == 0x09 || b == 0x0A || b == 0x0C || b == 0x0D || b == 0x20

/-- Tag-terminating bytes: space and `>`. -/
def isTT (b : Byte) : Bool :=
  b == 0x20 || b == 0x3E

/-- Index of the first non-whitespace byte of `data`. -/
def firstNonWS : List Byte → Nat
  | [] => 0
  | b :: rest => if isWS b then firstNonWS rest + 1 else 0

/-- The kinds of signature of `sniff.go`. -/
inductive sniffSig
  | exactSig (sig : List Byte) (ct : String)
  | maskedSig (mask pat : List Byte) (skipWS : Bool) (ct : String)
  | htmlSig (h : List Byte)
  | mp4Sig
  | textSig
deriving DecidableEq, Repr

/-- Loop of `maskedSig.match`: `data[i] & mask[i] == pat[i]` for every index of
`pat` (the caller has checked the lengths). -/
def maskedSig.loop : List Byte → List Byte → List Byte → Bool
  | [], _, _ => true
  | pb :: pat, m :: mask, d :: data =>
    if (d &&& m) ≠ pb then false else maskedSig.loop pat mask data
  | _ :: _, _, _ => false

/-- Loop of `htmlSig.match`: case-insensitive comparison of `data` with `h`
(the caller has checked the length). -/
def htmlSig.loop : List Byte → List Byte → Bool
  | [], _ => true
  | b :: h, d :: data =>
    let db := if 0x41 ≤ b ∧ b ≤ 0x5A then d &&& 0xDF else d
    if b ≠ db then false else htmlSig.loop h data
  | _ :: _, [] => false

/-- Loop of `mp4Sig.match`: `for st := 8; st < boxSize; st += 4`, skipping
`st == 12`, looking for `mp4` at `data[st:st+3]`. -/
def mp4Sig.loop (data : List Byte) (boxSize : Nat) : Nat → Nat → Bool
  | 0, _ => false
  | fuel + 1, st =>
    if st < boxSize then
      if st = 12 then mp4Sig.loop data boxSize fuel (st + 4)
      else if (data.drop st).take 3 = bytesOf "mp4" then true
      else mp4Sig.loop data boxSize fuel (st + 4)
    else false

/-- `binary.BigEndian.Uint32(data[:4])`. -/
def bigEndianUint32 (data : List Byte) : Nat :=
  data.getD 0 0 * 2 ^ 24 + data.getD 1 0 * 2 ^ 16 + data.getD 2 0 * 2 ^ 8 + data.getD 3 0

/-- Loop of `textSig.match`: no byte is a binary data byte. -/
def textSig.loop : List Byte → Bool
  | [] => true
  | b :: rest =>
    if b ≤ 0x08 ∨ b = 0x0B ∨ (0x0E ≤ b ∧ b ≤ 0x1A) ∨ (0x1C ≤ b ∧ b ≤ 0x1F) then false
    else textSig.loop rest

/-- The `match` method of a signature: the MIME type of the data, or `""`. -/
def sniffSig.match_ (sig : sniffSig) (data : List Byte) (firstNonWS : Nat) : String :=
  match sig with
  | .exactSig sg ct => if sg.isPrefixOf data then ct else ""
  | .maskedSig mask pat skipWS ct =>
    let data1 := if skipWS then data.drop firstNonWS else data
    if pat.length ≠ mask.length then ""
    else if data1.length < pat.length then ""
    else if maskedSig.loop pat mask data1 then ct else ""
  | .htmlSig h =>
    let data1 := data.drop firstNonWS
    if data1.length < h.length + 1 then ""
    else if !htmlSig.loop h data1 then ""
    else if !isTT (data1.getD h.length 0) then ""
    else "text/html; charset=utf-8"
  | .mp4Sig =>
    if data.length < 12 then ""
    else
      let boxSize := bigEndianUint32 data
      if data.length < boxSize ∨ boxSize % 4 ≠ 0 then ""
      else if (data.drop 4).take 4 ≠ bytesOf "ftyp" then ""
      else if mp4Sig.loop data boxSize boxSize 8 then "video/mp4" else ""
  | .textSig =>
    if textSig.loop (data.drop firstNonWS) then "text/plain; charset=utf-8" else ""

/-- Signatures tried before the image types. -/
def markupSignatures : List sniffSig :=
  [ .htmlSig (bytesOf "<!DOCTYPE HTML"), .htmlSig (bytesOf "<HTML"),
    .htmlSig (bytesOf "<HEAD"), .htmlSig (bytesOf "<SCRIPT"),
    .htmlSig (bytesOf "<IFRAME"), .htmlSig (bytesOf "<H1"),
    .htmlSig (bytesOf "<DIV"), .htmlSig (bytesOf "<FONT"),
    .htmlSig (bytesOf "<TABLE"), .htmlSig (bytesOf "<A"),
    .htmlSig (bytesOf "<STYLE"), .htmlSig (bytesOf "<TITLE"),
    .htmlSig (bytesOf "<B"), .htmlSig (bytesOf "<BODY"),
    .htmlSig (bytesOf "<BR"), .htmlSig (bytesOf "<P"),
    .htmlSig (bytesOf "<!--"),
    .maskedSig [0xFF, 0xFF, 0xFF, 0xFF, 0xFF] (bytesOf "<?xml") true
      "text/xml; charset=utf-8",
    .exactSig (bytesOf "%PDF-") "application/pdf",
    .exactSig (bytesOf "%!PS-Adobe-") "application/postscript",
    -- UTF BOMs
    .maskedSig [0xFF, 0xFF, 0x00, 0x00] [0xFE, 0xFF, 0x00, 0x00] false
      "text/plain; charset=utf-16be",
    .maskedSig [0xFF, 0xFF, 0x00, 0x00] [0xFF, 0xFE, 0x00, 0x00] false
      "text/plain; charset=utf-16le",
    .maskedSig [0xFF, 0xFF, 0xFF, 0x00] [0xEF, 0xBB, 0xBF, 0x00] false
      "text/plain; charset=utf-8" ]

/-- Image signatures. -/
def imageSignatures : List sniffSig :=
  [ .exactSig [0x00, 0x00, 0x01, 0x00] "image/x-icon",
    .exactSig [0x00, 0x00, 0x02, 0x00] "image/x-icon",
    .exactSig (bytesOf "BM") "image/bmp",
    .exactSig (bytesOf "GIF87a") "image/gif",
    .exactSig (bytesOf "GIF89a") "image/gif",
    .maskedSig [0xFF, 0xFF, 0xFF, 0xFF, 0, 0, 0, 0, 0xFF, 0xFF, 0xFF, 0xFF, 0xFF, 0xFF]
      (bytesOf "RIFF" ++ [0, 0, 0, 0] ++ bytesOf "WEBPVP") false "image/webp",
    .exactSig ([0x89] ++ bytesOf "PNG" ++ [0x0D, 0x0A, 0x1A, 0x0A]) "image/png",
    .exactSig [0xFF, 0xD8, 0xFF] "image/jpeg" ]

/-- Audio and video signatures. -/
def mediaSignatures : List sniffSig :=
  [ .maskedSig [0xFF, 0xFF, 0xFF, 0xFF, 0, 0, 0, 0, 0xFF, 0xFF, 0xFF, 0xFF]
      (bytesOf "FORM" ++ [0, 0, 0, 0] ++ bytesOf "AIFF") false "audio/aiff",
    .maskedSig [0xFF, 0xFF, 0xFF] (bytesOf "ID3") false "audio/mpeg",
    .maskedSig [0xFF, 0xFF, 0xFF, 0xFF, 0xFF] (bytesOf "OggS" ++ [0]) false
      "application/ogg",
    .maskedSig [0xFF, 0xFF, 0xFF, 0xFF, 0xFF, 0xFF, 0xFF, 0xFF]
      (bytesOf "MThd" ++ [0x00, 0x00, 0x00, 0x06]) false "audio/midi",
    .maskedSig [0xFF, 0xFF, 0xFF, 0xFF, 0, 0, 0, 0, 0xFF, 0xFF, 0xFF, 0xFF]
      (bytesOf "RIFF" ++ [0, 0, 0, 0] ++ bytesOf "AVI ") false "video/avi",
    .maskedSig [0xFF, 0xFF, 0xFF, 0xFF, 0, 0, 0, 0, 0xFF, 0xFF, 0xFF, 0xFF]
      (bytesOf "RIFF" ++ [0, 0, 0, 0] ++ bytesOf "WAVE") false "audio/wave",
    .mp4Sig,
    .exactSig [0x1A, 0x45, 0xDF, 0xA3] "video/webm" ]

/-- Font, archive and WebAssembly signatures. -/
def binarySignatures : List sniffSig :=
  [ .maskedSig (List.replicate 34 0x00 ++ [0xFF, 0xFF])
      (List.replicate 34 0x00 ++ bytesOf "LP") false "application/vnd.ms-fontobject",
    .exactSig [0x00, 0x01, 0x00, 0x00] "font/ttf",
    .exactSig (bytesOf "OTTO") "font/otf",
    .exactSig (bytesOf "ttcf") "font/collection",
    .exactSig (bytesOf "wOFF") "font/woff",
    .exactSig (bytesOf "wOF2") "font/woff2",
    .exactSig [0x1F, 0x8B, 0x08] "application/x-gzip",
    .exactSig (bytesOf "PK" ++ [0x03, 0x04]) "application/zip",
    .exactSig (bytesOf "Rar!" ++ [0x1A, 0x07, 0x00]) "application/x-rar-compressed",
    .exactSig (bytesOf "Rar!" ++ [0x1A, 0x07, 0x01, 0x00]) "application/x-rar-compressed",
    .exactSig [0x00, 0x61, 0x73, 0x6D] "application/wasm" ]

/-- Signatures that take precedence over the text rule, in the order of
`sniffSignatures`. -/
def precedingSignatures : List sniffSig :=
  markupSignatures ++ imageSignatures ++ mediaSignatures ++ binarySignatures

/-- The table `sniffSignatures`: the text rule comes last. -/
def sniffSignatures : List sniffSig := precedingSignatures ++ [.textSig]

/-- Loop of `DetectContentType`: the type of the first signature that matches,
`application/octet-stream` when none does. -/
def firstMatch (data : List Byte) (ws : Nat) : List sniffSig → String
  | [] => "application/octet-stream"
  | sig :: rest =>
    let ct := sig.match_ data ws
    if ct ≠ "" then ct else firstMatch data ws rest

/-- Go `http.DetectContentType`. -/
def http.DetectContentType (data : List Byte) : String :=
  let data1 := if data.length > sniffLen then data.take sniffLen else data
  firstMatch data1 (firstNonWS data1) sniffSignatures

/-! ## fileutils -/

/-- `fileutils.DetermineMIME`: the content type, the error, and the handle as
the call leaves it. -/
def DetermineMIME (file : File) : (String × Option GoError) × File :=
  match file.Read 512 with
  | ((buffer, err), f1) =>
    if err ≠ none ∧ err ≠ some .eof then (("", err), f1)
    else
      let contentType := http.DetectContentType buffer
      match f1.SeekStart with
      | (some e, f2) => (("", some e), f2)
      | (none, f2) => ((contentType, none), f2)


/-! ## controller -/

/-- Go `strconv.ParseUint` digit loop for base 10: `none` on a character that
is no decimal digit. -/
def strconv.parseDigits : List Char → Nat → Option Nat
  | [], acc => some acc
  | c :: cs, acc =>
    if '0' ≤ c ∧ c ≤ '9' then strconv.parseDigits cs (acc * 10 + (c.toNat - '0'.toNat))
    else none

/-- Go `strconv.ParseInt(s, 10, 64)`, reduced to success or failure: an
optional sign, at least one decimal digit, and a value within `int64`. -/
def strconv.ParseInt (s : String) : Option Int :=
  match s.data with
  | [] => none
  | c :: cs =>
    let neg := decide (c = '-')
    let digits := if c = '+' ∨ c = '-' then cs else c :: cs
    if digits = [] then none
    else
      match strconv.parseDigits digits 0 with
      | none => none
      | some un =>
        if !neg ∧ un ≥ 2 ^ 63 then none
        else if neg ∧ un > 2 ^ 63 then none
        else some (if neg then -(un : Int) else (un : Int))

/-- The value the request context holds under the path-variable key `id`:
a string, or a value of another type. -/
inductive CtxValue
  | str (s : String)
  | other
deriving DecidableEq, Repr

/-- The part of `*http.Request` the handler reads:
`req.Context().Value(contextypes.ContextPathVarKey("id"))`, `none` for `nil`. -/
structure Request where
  idParam : Option CtxValue

/-- The `Content` of an `apitypes.Response`: the map
`{"error": err.Error()}` of an error, a file, or anything else. -/
inductive Body
  | errorMap (err : GoError)
  | file (f : File)
  | other (text : String)
deriving DecidableEq, Repr

/-- `apitypes.Response`; the header map is a list of key-value pairs. -/
structure Response where
  Status : Nat
  Content : Body
  Headers : List (String × String)
deriving DecidableEq, Repr

/-- Value of a header of a response. -/
def Response.header (r : Response) (key : String) : Option String :=
  (r.Headers.find? (fun kv => kv.1 = key)).map (fun kv => kv.2)

/-- `extractIDFromRequest`. -/
def extractIDFromRequest (req : Request) : Int × Option GoError :=
  match req.idParam with
  | none => (0, some (.plainf "id param can't be null"))
  | some .other => (0, some (.plainf "id param type is invalid"))
  | some (.str idString) =>
    match strconv.ParseInt idString with
    | none => (0, some (.plainf "id param type is invalid"))
    | some id => (id, none)

/-- `StorageController.Get` over a storage service built on `pathsrv`.
`CommonController.ParseError` is not among the sources: it is the parameter
`parseError`. -/
def StorageController.Get {σ : Type} (pathsrv : PathService σ)
    (parseError : GoError → Response) (w : World σ) (req : Request) :
    World σ × Response :=
  match extractIDFromRequest req with
  | (_, some err) => (w, { Status := 400, Content := .errorMap err, Headers := [] })
  | (id, none) =>
    match storageService.Get pathsrv w id with
    | (w1, (_, some err)) => (w1, parseError err)
    | (w1, (file, none)) =>
      match DetermineMIME file with
      | ((_, some err), _) => (w1, parseError err)
      | ((contentType, none), file1) =>
        (w1, { Status := 200,
               Headers := [("Content-Disposition", "attachment; filename=" ++ file1.Name),
                           ("Content-Type", contentType)],
               Content := .file file1 })

/-! ## Concrete values used in examples -/

/-- An empty backing store. -/
def emptyFS : FS := { nodes := fun _ => none, calls := [] }

/-- The state of a freshly started service whose `PROJECT_ROOT` is `root`. -/
def freshWorld (root : String) : World Buffer :=
  { paths := emptyBuffer, fs := emptyFS, projectRoot := root }

/-- A stream that delivers the bytes of `text` and then ends. -/
def streamOf (text : String) : Stream := { data := bytesOf text, fault := none }


/-- The path service of `TestUploadMetjod`: `Exists` answers `(true, nil)`,
`SavePath` answers `nil`; it has no state. -/
def mockExistingPathService : PathService Unit :=
  { SavePath := fun _ _ _ => ((), none)
    GetPath := fun _ _ => ((), ("", none))
    Exists := fun _ _ => ((), (true, none)) }

/-- A path service over a registry that cannot be written: `Exists` answers
`(false, nil)` and `SavePath` answers an error; it has no state. -/
def failingSavePathService : PathService Unit :=
  { SavePath := fun _ _ _ => ((), some (.plainf "registry unavailable"))
    GetPath := fun _ _ => ((), ("", some (.sentinel .ErrNotFound)))
    Exists := fun _ _ => ((), (false, none)) }

/-- A `CommonController.ParseError` for examples: status 500 with the error. -/
def exampleParseError (err : GoError) : Response :=
  { Status := 500, Content := .errorMap err, Headers := [] }

/-- The upload of the specification's scenario: identifier 1, file `a.txt`,
content `hello`. -/
def helloUpload : UploadData :=
  { File := streamOf "hello", Filename := "a.txt", Id := 1 }

/-- The state of a service started with an empty `PROJECT_ROOT` after
`helloUpload`. -/
def worldAfterHello : World Buffer :=
  (storageService.Upload mainPathService (freshWorld "") helloUpload).1

/-- A registry whose only entry sends identifier 7 to `files/gone.txt`. -/
def danglingBuffer : Buffer := (memoryRepository.SavePath emptyBuffer 7 "files/gone.txt").1

/-- Plain ASCII text: printable ASCII characters, tab, line feed and carriage
return. -/
def isPlainASCII (data : List Byte) : Bool :=
  data.all (fun b => b == 0x09 || b == 0x0A || b == 0x0D || (0x20 ≤ b && b ≤ 0x7E))

/-- The PNG signature `\x89PNG\r\n\x1a\n`. -/
def pngSignature : List Byte := [0x89, 0x50, 0x4E, 0x47, 0x0D, 0x0A, 0x1A, 0x0A]

/-- A readable, seekable handle at offset 0 on a file with the given bytes. -/
def fileOf (name : String) (data : List Byte) : File :=
  { name := name, data := data, offset := 0, readFault := none, seekFault := none }

/-- A handle on a file of 600 bytes, read offset at byte 17. -/
def bigFile : File :=
  { name := "files/big.bin", data := List.replicate 600 65, offset := 17,
    readFault := none, seekFault := none }

/-! ## Sequences of service calls -/

/-- The world after `n` consecutive calls `Get(id)` on the storage service. -/
def getRepeatedly {σ : Type} (pathsrv : PathService σ) (id : Int) : Nat → World σ → World σ
  | 0, w => w
  | n + 1, w => getRepeatedly pathsrv id n (storageService.Get pathsrv w id).1

/-- A call on the `StorageService` interface. -/
inductive ServiceCall
  | upload (data : UploadData)
  | get (id : Int)

/-- The world after one call on the storage service. -/
def ServiceCall.run {σ : Type} (pathsrv : PathService σ) (w : World σ) : ServiceCall → World σ
  | .upload data => (storageService.Upload pathsrv w data).1
  | .get id => (storageService.Get pathsrv w id).1

/-- The world after a finite sequence of calls, first call first. -/
def runCalls {σ : Type} (pathsrv : PathService σ) : List ServiceCall → World σ → World σ
  | [], w => w
  | c :: rest, w => runCalls pathsrv rest (c.run pathsrv w)

/-- A second upload for the scenario: identifier 2, again the file name
`a.txt`, content `world`. -/
def worldUpload : UploadData :=
  { File := streamOf "world", Filename := "a.txt", Id := 2 }

/-! # Properties -/

/-! ## Registry lemmas -/

theorem mainPathService_Exists (m : Buffer) (id : Int) :
    mainPathService.Exists m id = (m, ((m id).isSome, none)) := rfl

theorem mainPathService_SavePath (m : Buffer) (id : Int) (path : String) :
    mainPathService.SavePath m id path =
      ((fun k => if k = id then some path else m k), none) := rfl

theorem mainPathService_GetPath_some (m : Buffer) (id : Int) (path : String)
    (h : m id = some path) : mainPathService.GetPath m id = (m, (path, none)) := by
  show pathService.GetPath MemoryRepository m id = _
  simp [pathService.GetPath, pathService.Exists, MemoryRepository, memoryRepository.Exists,
    memoryRepository.GetPath, h]

theorem mainPathService_GetPath_none (m : Buffer) (id : Int) (h : m id = none) :
    mainPathService.GetPath m id =
      (m, ("", some (.wrapf ("failed retrieving ID " ++ toString id ++ ": ")
        (.sentinel .ErrNotFound) ""))) := by
  show pathService.GetPath MemoryRepository m id = _
  simp [pathService.GetPath, pathService.Exists, MemoryRepository, memoryRepository.Exists, h]


/-! ## Backing-store lemmas -/

theorem os_Create_success (fs fs2 : FS) (name : String) (dst : File)
    (h : os.Create fs name = (fs2, (dst, none))) :
    dst.name = name ∧ fs2.nodes name = some (.file [] true) ∧
      ∀ k, k ≠ name → fs2.nodes k = fs.nodes k := by
  unfold os.Create at h
  split at h
  · simp at h
  · split at h
    · simp only [Prod.mk.injEq, and_true] at h
      obtain ⟨rfl, rfl⟩ := h
      refine ⟨rfl, by simp, fun k hk => by simp [hk]⟩
    · simp at h
  · simp only [Prod.mk.injEq, and_true] at h
    obtain ⟨rfl, rfl⟩ := h
    refine ⟨rfl, by simp, fun k hk => by simp [hk]⟩

theorem io_Copy_nodes (fs : FS) (dst : File) (src : Stream) (content : List Byte)
    (readable : Bool) (h : fs.nodes dst.name = some (.file content readable)) :
    (io.Copy fs dst src).1.nodes dst.name = some (.file (content ++ src.data) readable) ∧
      (io.Copy fs dst src).2 = src.fault := by
  simp [io.Copy, h]

/-- A successful `storeFile` returns `<root>/files/<filename>` (joined and
cleaned) and leaves a readable file with exactly the bytes of the stream there. -/
theorem storeFile_success {σ : Type} (w w1 : World σ) (data : UploadData) (dest : String)
    (h : storageService.storeFile w data = (w1, (dest, none))) :
    dest = filepath.Join [filepath.Join [w.projectRoot, "files"], data.Filename] ∧
    w1.paths = w.paths ∧ w1.projectRoot = w.projectRoot ∧
    w1.fs.nodes dest = some (.file data.File.data true) := by
  unfold storageService.storeFile at h
  simp only [environment.GetProjectRoot] at h
  split at h
  · simp at h
  · rename_i fs1 hmk
    split at h
    · simp at h
    · rename_i fs2 dst hcr
      obtain ⟨hname, hnode, -⟩ := os_Create_success _ _ _ _ hcr
      have hcp := io_Copy_nodes fs2 dst data.File [] true (by rw [hname]; exact hnode)
      split at h
      · simp at h
      · rename_i fs3 hco
        rw [hco] at hcp
        simp only [Prod.mk.injEq, and_true] at h
        obtain ⟨rfl, rfl⟩ := h
        exact ⟨hname, rfl, rfl, by simpa [File.Name, File.Close, hname] using hcp.1⟩

/-- `Get` on an identifier registered at a readable regular file returns a
handle on that file at offset 0. -/
theorem get_registered_file (m : Buffer) (fs : FS) (root : String) (id : Int)
    (path : String) (content : List Byte) (hreg : m id = some path)
    (hfile : fs.nodes path = some (.file content true)) :
    (storageService.Get mainPathService { paths := m, fs := fs, projectRoot := root } id).2 =
      ({ name := path, data := content, offset := 0, readFault := none, seekFault := none },
        none) := by
  simp [storageService.Get, mainPathService_GetPath_some m id path hreg, checkIfDoesntExist,
    os.Stat, os.IsNotExist, os.Open, hfile]

/-- What a successful `Upload` over the in-memory registry has done. -/
theorem upload_success_main (w w1 : World Buffer) (data : UploadData)
    (hok : storageService.Upload mainPathService w data = (w1, none)) :
    w.paths data.Id = none ∧
    ∃ dest, dest = filepath.Join [filepath.Join [w.projectRoot, "files"], data.Filename] ∧
      w1.paths = (fun k => if k = data.Id then some dest else w.paths k) ∧
      w1.projectRoot = w.projectRoot ∧
      w1.fs.nodes dest = some (.file data.File.data true) := by
  unfold storageService.Upload at hok
  rw [mainPathService_Exists] at hok
  cases hex : w.paths data.Id with
  | some p => simp [hex] at hok
  | none =>
    refine ⟨rfl, ?_⟩
    simp only [hex, Option.isSome_none] at hok
    split at hok
    · simp at hok
    · rename_i w2 dest hst
      obtain ⟨hdest, hp, hr, hn⟩ := storeFile_success _ _ _ _ hst
      rw [mainPathService_SavePath] at hok
      simp only [Prod.mk.injEq, and_true] at hok
      subst hok
      exact ⟨dest, hdest, by simp [hp], hr, hn⟩

/-- An `Upload` for a registered identifier returns the world it was given. -/
theorem upload_registered_main (w : World Buffer) (data : UploadData)
    (h : w.paths data.Id ≠ none) :
    storageService.Upload mainPathService w data =
      (w, some (.wrapf ("path with id " ++ toString data.Id ++ " already exists: ")
        (.sentinel .ErrInvalidInput) "")) := by
  unfold storageService.Upload
  rw [mainPathService_Exists]
  cases hex : w.paths data.Id with
  | none => exact absurd hex h
  | some p => simp


/-! ## Content-sniffing lemmas -/

/-- On a readable, seekable handle `DetermineMIME` classifies the up to 512
bytes that follow the read offset and rewinds the handle. -/
theorem determineMIME_of_readable (file : File) (hr : file.readFault = none)
    (hs : file.seekFault = none) :
    DetermineMIME file =
      ((http.DetectContentType ((file.data.drop file.offset).take 512), none),
        { file with offset := 0 }) := by
  obtain ⟨name, data, offset, rf, sf⟩ := file
  simp only at hr hs
  subst hr hs
  unfold DetermineMIME File.Read
  by_cases hc : ((data.drop offset).take 512).length = 0
  · have hnil : (data.drop offset).take 512 = [] := List.length_eq_zero.mp hc
    simp only [hc, hnil, true_and, Nat.lt_irrefl, and_self, ite_true, if_true]
    simp [File.SeekStart]
  · simp only [hc, false_and, if_false]
    simp [File.SeekStart]

theorem detect_take (data : List Byte) :
    http.DetectContentType (data.take 512) = http.DetectContentType data := by
  unfold http.DetectContentType sniffLen
  by_cases h : data.length > 512
  · have : ¬ (List.take 512 data).length > 512 := by simp
    simp [h]
  · have : data.take 512 = data := List.take_of_length_le (by omega)
    simp [this]

theorem firstMatch_skip (data : List Byte) (ws : Nat) (pre rest : List sniffSig)
    (h : ∀ sig ∈ pre, sig.match_ data ws = "") :
    firstMatch data ws (pre ++ rest) = firstMatch data ws rest := by
  induction pre with
  | nil => rfl
  | cons sig pre ih =>
    have h1 : sig.match_ data ws = "" := h sig (List.mem_cons_self _ _)
    have h2 : ∀ s ∈ pre, s.match_ data ws = "" := fun s hs => h s (List.mem_cons_of_mem _ hs)
    simp [firstMatch, h1, ih h2]

theorem textSig_loop_of_plain (data : List Nat) (h : isPlainASCII data = true) :
    textSig.loop data = true := by
  induction data with
  | nil => rfl
  | cons b rest ih =>
    simp only [isPlainASCII, List.all_cons, Bool.and_eq_true, Bool.or_eq_true, beq_iff_eq,
      decide_eq_true_eq] at h
    have hrest : isPlainASCII rest = true := by simpa [isPlainASCII] using h.2
    have hb : ¬ (b ≤ 0x08 ∨ b = 0x0B ∨ (0x0E ≤ b ∧ b ≤ 0x1A) ∨ (0x1C ≤ b ∧ b ≤ 0x1F)) := by
      have hb1 : ((b : Nat) = 9 ∨ (b : Nat) = 10) ∨ (b : Nat) = 13 ∨
          (32 : Nat) ≤ b ∧ b ≤ (126 : Nat) := by
        rcases h.1 with ((h1 | h1) | h1) | h1
        · exact Or.inl (Or.inl h1)
        · exact Or.inl (Or.inr h1)
        · exact Or.inr (Or.inl h1)
        · exact Or.inr (Or.inr h1)
      show ¬ ((b : Nat) ≤ (8 : Nat) ∨ (b : Nat) = (11 : Nat) ∨
        ((14 : Nat) ≤ b ∧ b ≤ (26 : Nat)) ∨ ((28 : Nat) ≤ b ∧ b ≤ (31 : Nat)))
      omega
    simp only [textSig.loop, hb, if_false]
    exact ih hrest

theorem isPlainASCII_drop (data : List Byte) (n : Nat) (h : isPlainASCII data = true) :
    isPlainASCII (data.drop n) = true := by
  simp only [isPlainASCII, List.all_eq_true] at *
  exact fun b hb => h b (List.mem_of_mem_drop hb)

theorem isPlainASCII_take (data : List Byte) (n : Nat) (h : isPlainASCII data = true) :
    isPlainASCII (data.take n) = true := by
  simp only [isPlainASCII, List.all_eq_true] at *
  exact fun b hb => h b (List.mem_of_mem_take hb)

/-- Plain ASCII text that none of the preceding signatures matches falls
through to the text rule. -/
theorem detect_plain_text (data : List Byte) (hplain : isPlainASCII data = true)
    (hnone : ∀ sig ∈ precedingSignatures,
      sig.match_ (data.take 512) (firstNonWS (data.take 512)) = "") :
    http.DetectContentType data = "text/plain; charset=utf-8" := by
  rw [← detect_take]
  unfold http.DetectContentType
  have hlen : ¬ (data.take 512).length > sniffLen := by simp [sniffLen]
  simp only [hlen, if_false, sniffSignatures]
  rw [firstMatch_skip _ _ _ _ hnone]
  have ht := textSig_loop_of_plain _
    (isPlainASCII_drop _ (firstNonWS (data.take 512)) (isPlainASCII_take data 512 hplain))
  simp [firstMatch, sniffSig.match_, ht]

theorem take_pngSignature (rest : List Byte) :
    (pngSignature ++ rest).take 512 = pngSignature ++ rest.take 504 := by
  rw [List.take_append_eq_append_take]
  rfl

theorem markupSignatures_eval : markupSignatures =
    [ .htmlSig [60, 33, 68, 79, 67, 84, 89, 80, 69, 32, 72, 84, 77, 76],
      .htmlSig [60, 72, 84, 77, 76], .htmlSig [60, 72, 69, 65, 68],
      .htmlSig [60, 83, 67, 82, 73, 80, 84], .htmlSig [60, 73, 70, 82, 65, 77, 69],
      .htmlSig [60, 72, 49], .htmlSig [60, 68, 73, 86], .htmlSig [60, 70, 79, 78, 84],
      .htmlSig [60, 84, 65, 66, 76, 69], .htmlSig [60, 65],
      .htmlSig [60, 83, 84, 89, 76, 69], .htmlSig [60, 84, 73, 84, 76, 69],
      .htmlSig [60, 66], .htmlSig [60, 66, 79, 68, 89], .htmlSig [60, 66, 82],
      .htmlSig [60, 80], .htmlSig [60, 33, 45, 45],
      .maskedSig [255, 255, 255, 255, 255] [60, 63, 120, 109, 108] true
        "text/xml; charset=utf-8",
      .exactSig [37, 80, 68, 70, 45] "application/pdf",
      .exactSig [37, 33, 80, 83, 45, 65, 100, 111, 98, 101, 45] "application/postscript",
      .maskedSig [255, 255, 0, 0] [254, 255, 0, 0] false "text/plain; charset=utf-16be",
      .maskedSig [255, 255, 0, 0] [255, 254, 0, 0] false "text/plain; charset=utf-16le",
      .maskedSig [255, 255, 255, 0] [239, 187, 191, 0] false "text/plain; charset=utf-8" ] := by
  decide

theorem imageSignatures_eval : imageSignatures =
    [ .exactSig [0, 0, 1, 0] "image/x-icon", .exactSig [0, 0, 2, 0] "image/x-icon",
      .exactSig [66, 77] "image/bmp", .exactSig [71, 73, 70, 56, 55, 97] "image/gif",
      .exactSig [71, 73, 70, 56, 57, 97] "image/gif",
      .maskedSig [255, 255, 255, 255, 0, 0, 0, 0, 255, 255, 255, 255, 255, 255]
        [82, 73, 70, 70, 0, 0, 0, 0, 87, 69, 66, 80, 86, 80] false "image/webp",
      .exactSig [137, 80, 78, 71, 13, 10, 26, 10] "image/png",
      .exactSig [255, 216, 255] "image/jpeg" ] := by
  decide

/-- Data that starts with the PNG signature is `image/png`, whatever follows. -/
theorem detect_png (rest : List Byte) :
    http.DetectContentType (pngSignature ++ rest) = "image/png" := by
  rw [← detect_take, take_pngSignature]
  unfold http.DetectContentType
  have hlen : ¬ (pngSignature ++ List.take 504 rest).length > sniffLen := by
    simp [pngSignature, sniffLen]
  simp only [hlen, if_false]
  simp only [sniffSignatures, precedingSignatures, markupSignatures_eval, imageSignatures_eval,
    pngSignature]
  simp +decide [firstMatch, sniffSig.match_, firstNonWS, isWS, htmlSig.loop, maskedSig.loop]

/-! ## The two gaps in general form -/

/-- Whenever the file is stored and `SavePath` then fails, `Upload` returns
the error of `SavePath` and the stored file stays where it was written. -/
theorem upload_savePath_failure_general {σ : Type} (pathsrv : PathService σ)
    (w w1 : World σ) (data : UploadData) (s1 s2 : σ) (dest : String) (err : GoError)
    (hex : pathsrv.Exists w.paths data.Id = (s1, (false, none)))
    (hst : storageService.storeFile { w with paths := s1 } data = (w1, (dest, none)))
    (hsv : pathsrv.SavePath w1.paths data.Id dest = (s2, some err)) :
    storageService.Upload pathsrv w data = ({ w1 with paths := s2 }, some err) ∧
    (storageService.Upload pathsrv w data).1.fs.contentAt dest = some data.File.data := by
  have hup : storageService.Upload pathsrv w data = ({ w1 with paths := s2 }, some err) := by
    simp [storageService.Upload, hex, hst, hsv]
  refine ⟨hup, ?_⟩
  rw [hup]
  simp [FS.contentAt, (storeFile_success _ _ _ _ hst).2.2.2]

/-- Whenever the registered location holds nothing, `Get` asks for its status,
opens nothing and returns an error built without `%w`. -/
theorem get_unreachable_general (m : Buffer) (fs : FS) (root : String) (id : Int)
    (path : String) (hreg : m id = some path) (hgone : fs.nodes path = none) :
    storageService.Get mainPathService { paths := m, fs := fs, projectRoot := root } id =
      ({ paths := m, fs := ⟨fs.nodes, fs.calls ++ [.stat path]⟩, projectRoot := root },
       (File.zero,
        some (.plainf ("file with ID " ++ toString id ++ " can't be reached at its path")))) := by
  simp [storageService.Get, mainPathService_GetPath_some m id path hreg, checkIfDoesntExist,
    os.Stat, os.IsNotExist, hgone]


/-- After a successful `Upload` the controller answers the `GET` for the
identifier with status 200 and the `Content-Disposition` value
`attachment; filename=` followed by the joined storage location. -/
theorem get_content_disposition_general (w w1 : World Buffer) (data : UploadData)
    (parseError : GoError → Response) (idString : String)
    (hok : storageService.Upload mainPathService w data = (w1, none))
    (hid : strconv.ParseInt idString = some data.Id) :
    (StorageController.Get mainPathService parseError w1
        { idParam := some (.str idString) }).2.Status = 200 ∧
    (StorageController.Get mainPathService parseError w1
        { idParam := some (.str idString) }).2.header "Content-Disposition" =
      some ("attachment; filename=" ++
        filepath.Join [filepath.Join [w.projectRoot, "files"], data.Filename]) := by
  obtain ⟨-, dest, hdest, hp, -, hn⟩ := upload_success_main w w1 data hok
  obtain ⟨m, fs, root⟩ := w1
  simp only at hp hn
  have hreg : m data.Id = some dest := by simp [hp]
  have hget := get_registered_file m fs root data.Id dest data.File.data hreg hn
  rcases hg : storageService.Get mainPathService
    { paths := m, fs := fs, projectRoot := root } data.Id with ⟨w2, r⟩
  rw [hg] at hget
  simp only at hget
  subst hget
  subst hdest
  simp [StorageController.Get, extractIDFromRequest, hid, hg, Response.header, File.Name,
    determineMIME_of_readable]

/-! ## What the service calls leave alone -/

/-- `Get` over the in-memory registry changes neither the registry nor the
file table nor the root setting; only the list of calls grows. -/
theorem get_preserves_main (w : World Buffer) (id : Int) :
    (storageService.Get mainPathService w id).1.paths = w.paths ∧
    (storageService.Get mainPathService w id).1.fs.nodes = w.fs.nodes ∧
    (storageService.Get mainPathService w id).1.projectRoot = w.projectRoot := by
  cases hreg : w.paths id with
  | none =>
    simp [storageService.Get, mainPathService_GetPath_none w.paths id hreg]
  | some path =>
    simp only [storageService.Get, mainPathService_GetPath_some w.paths id path hreg,
      checkIfDoesntExist, os.Stat, os.Open]
    cases hn : w.fs.nodes path with
    | none => simp [os.IsNotExist]
    | some node =>
      cases node with
      | dir => simp [os.IsNotExist, hn]
      | file content readable =>
        cases readable <;> simp [os.IsNotExist, hn]

/-- `storeFile` never touches the state behind the path service or the root
setting. -/
theorem storeFile_preserves_paths {σ : Type} (w : World σ) (data : UploadData) :
    (storageService.storeFile w data).1.paths = w.paths ∧
    (storageService.storeFile w data).1.projectRoot = w.projectRoot := by
  unfold storageService.storeFile
  simp only [environment.GetProjectRoot]
  rcases os.MkdirAll w.fs (filepath.Join [w.projectRoot, "files"]) with ⟨fs1, _ | e1⟩
  · simp only
    rcases os.Create fs1 (filepath.Join [filepath.Join [w.projectRoot, "files"],
      data.Filename]) with ⟨fs2, dst, _ | e2⟩
    · simp only
      rcases io.Copy fs2 dst data.File with ⟨fs3, _ | e3⟩ <;> exact ⟨rfl, rfl⟩
    · exact ⟨rfl, rfl⟩
  · exact ⟨rfl, rfl⟩

/-- The registry after `Upload` over the in-memory registry: unchanged, or
the old registry with one entry added for the identifier of the upload, which
had none. -/
theorem upload_registry_change (w : World Buffer) (data : UploadData) :
    (storageService.Upload mainPathService w data).1.paths = w.paths ∨
    (w.paths data.Id = none ∧
      ∃ dest : String, (storageService.Upload mainPathService w data).1.paths =
        fun k => if k = data.Id then some dest else w.paths k) := by
  cases hreg : w.paths data.Id with
  | some p =>
    left
    rw [upload_registered_main w data (by simp [hreg])]
  | none =>
    unfold storageService.Upload
    rw [mainPathService_Exists]
    simp only [hreg, Option.isSome_none]
    have hp := (storeFile_preserves_paths { w with paths := w.paths } data).1
    split
    · rename_i w1 e hst
      left
      rw [hst] at hp
      exact hp
    · rename_i w1 dest hst
      right
      rw [hst] at hp
      simp only at hp
      refine ⟨trivial, dest, ?_⟩
      rw [mainPathService_SavePath]
      simp [hp]

/-- No single call removes or rewrites a registry entry. -/
theorem call_keeps_entry (w : World Buffer) (c : ServiceCall) (id : Int) (loc : String)
    (h : w.paths id = some loc) : (c.run mainPathService w).paths id = some loc := by
  cases c with
  | get j =>
    simp only [ServiceCall.run, (get_preserves_main w j).1, h]
  | upload data =>
    simp only [ServiceCall.run]
    rcases upload_registry_change w data with hsame | ⟨hfree, dest, hadd⟩
    · rw [hsame, h]
    · rw [hadd]
      have hne : id ≠ data.Id := by
        intro heq
        rw [heq, hfree] at h
        exact Option.noConfusion h
      simp [hne, h]

/-- Repeated `Get` changes neither the registry nor the file table. -/
theorem getRepeatedly_preserves_main (id : Int) (n : Nat) (w : World Buffer) :
    (getRepeatedly mainPathService id n w).paths = w.paths ∧
    (getRepeatedly mainPathService id n w).fs.nodes = w.fs.nodes := by
  induction n generalizing w with
  | zero => exact ⟨rfl, rfl⟩
  | succ n ih =>
    obtain ⟨hp, hn, -⟩ := get_preserves_main w id
    obtain ⟨hp1, hn1⟩ := ih (storageService.Get mainPathService w id).1
    exact ⟨by simp only [getRepeatedly]; rw [hp1, hp],
      by simp only [getRepeatedly]; rw [hn1, hn]⟩

/-- The controller's `Get`, sniffing included, changes neither the registry
nor the file table. -/
theorem controller_get_preserves_main (parseError : GoError → Response) (w : World Buffer)
    (req : Request) :
    (StorageController.Get mainPathService parseError w req).1.paths = w.paths ∧
    (StorageController.Get mainPathService parseError w req).1.fs.nodes = w.fs.nodes := by
  unfold StorageController.Get
  rcases extractIDFromRequest req with ⟨id, _ | e⟩
  · simp only
    obtain ⟨hp, hn, -⟩ := get_preserves_main w id
    rcases hg : storageService.Get mainPathService w id with ⟨w1, file, _ | e1⟩
    · rw [hg] at hp hn
      simp only at hp hn ⊢
      rcases DetermineMIME file with ⟨⟨ct, _ | e2⟩, file1⟩ <;> exact ⟨hp, hn⟩
    · rw [hg] at hp hn
      exact ⟨hp, hn⟩
  · exact ⟨rfl, rfl⟩

/-! ## Claims -/

/-- C1: whenever the path service reports the identifier of the upload as
existing (`Exists` returns `(true, nil)`), `storageService.Upload` returns a
non-nil error for which `errors.Is(err, errs.ErrInvalidInput)` holds, whatever
the filename and the stream. -/
theorem upload_existing_id_invalid_input {σ : Type} (pathsrv : PathService σ)
    (w : World σ) (data : UploadData)
    (h : (pathsrv.Exists w.paths data.Id).2 = (true, none)) :
    ∃ err, (storageService.Upload pathsrv w data).2 = some err ∧
      errors.Is err .ErrInvalidInput = true := by
  rcases hx : pathsrv.Exists w.paths data.Id with ⟨s1, r⟩
  rw [hx] at h
  simp only at h
  subst h
  refine ⟨.wrapf ("path with id " ++ toString data.Id ++ " already exists: ")
    (.sentinel .ErrInvalidInput) "", ?_, ?_⟩
  · simp [storageService.Upload, hx]
  · simp [errors.Is]

theorem upload_existing_id_invalid_input_witness :
    (mockExistingPathService.Exists () 1).2 = (true, none) ∧
    ∃ err, (storageService.Upload mockExistingPathService
        { paths := (), fs := emptyFS, projectRoot := "" }
        { File := streamOf "hello", Filename := "a.txt", Id := 1 }).2 = some err ∧
      errors.Is err .ErrInvalidInput = true :=
  ⟨rfl, upload_existing_id_invalid_input mockExistingPathService
    { paths := (), fs := emptyFS, projectRoot := "" }
    { File := streamOf "hello", Filename := "a.txt", Id := 1 } rfl⟩

/-- C2: round trip.  In every state of registry and backing store in which the
identifier has no registry entry, for every filename and stream for which
`Upload` succeeds, the `Get` that follows succeeds and returns a handle at
offset 0 whose bytes, read to the end, are the bytes of the stream. -/
theorem upload_then_get_round_trip (w : World Buffer) (data : UploadData)
    (hfree : w.paths data.Id = none)
    (hok : (storageService.Upload mainPathService w data).2 = none) :
    ∃ file : File,
      (storageService.Get mainPathService
        (storageService.Upload mainPathService w data).1 data.Id).2 = (file, none) ∧
      file.offset = 0 ∧ file.data = data.File.data ∧
      file.ReadAll = (data.File.data, none) := by
  have _ := hfree
  rcases hup : storageService.Upload mainPathService w data with ⟨w1, e⟩
  rw [hup] at hok
  simp only at hok
  subst hok
  obtain ⟨-, dest, -, hp, -, hn⟩ := upload_success_main w w1 data hup
  obtain ⟨m, fs, root⟩ := w1
  simp only at hp hn
  have hreg : m data.Id = some dest := by simp [hp]
  exact ⟨_, get_registered_file m fs root data.Id dest data.File.data hreg hn, rfl, rfl,
    by simp [File.ReadAll]⟩

theorem upload_then_get_round_trip_witness :
    (freshWorld "/srv").paths helloUpload.Id = none ∧
    (storageService.Upload mainPathService (freshWorld "/srv") helloUpload).2 = none ∧
    ∃ file : File,
      (storageService.Get mainPathService
        (storageService.Upload mainPathService (freshWorld "/srv") helloUpload).1
        helloUpload.Id).2 = (file, none) ∧
      file.offset = 0 ∧ file.data = helloUpload.File.data ∧
      file.ReadAll = (helloUpload.File.data, none) :=
  ⟨rfl, rfl, upload_then_get_round_trip (freshWorld "/srv") helloUpload rfl rfl⟩

/-- C3: failure atomicity of a duplicate upload.  For an identifier that has a
registry entry, `Upload` with any filename and stream fails with an error
wrapping `errs.ErrInvalidInput` and returns the world unchanged: registry,
stored content and the list of operating-system calls are as before, so
`Get` returns afterwards what it returned before. -/
theorem duplicate_upload_changes_nothing (w : World Buffer) (data : UploadData)
    (h : w.paths data.Id ≠ none) :
    (∃ err, storageService.Upload mainPathService w data = (w, some err) ∧
      errors.Is err .ErrInvalidInput = true) ∧
    storageService.Get mainPathService
        (storageService.Upload mainPathService w data).1 data.Id =
      storageService.Get mainPathService w data.Id := by
  have hup := upload_registered_main w data h
  exact ⟨⟨_, hup, by simp [errors.Is]⟩, by rw [hup]⟩

theorem duplicate_upload_changes_nothing_witness :
    worldAfterHello.paths 1 ≠ none ∧
    (∃ err, storageService.Upload mainPathService worldAfterHello
        { File := streamOf "world", Filename := "a.txt", Id := 1 } =
          (worldAfterHello, some err) ∧
      errors.Is err .ErrInvalidInput = true) ∧
    storageService.Get mainPathService
        (storageService.Upload mainPathService worldAfterHello
          { File := streamOf "world", Filename := "a.txt", Id := 1 }).1 1 =
      storageService.Get mainPathService worldAfterHello 1 :=
  ⟨by decide, duplicate_upload_changes_nothing worldAfterHello
    { File := streamOf "world", Filename := "a.txt", Id := 1 } (by decide)⟩

/-- C4: for an identifier without registry entry the lookup fails with an
error wrapping `errs.ErrNotFound` at every layer: `memoryRepository.GetPath`
returns the empty string and such an error, `pathService.GetPath` returns such
an error, and `storageService.Get` returns such an error and leaves the world
as it was, the list of operating-system calls included. -/
theorem lookup_unregistered_not_found (m : Buffer) (fs : FS) (root : String) (id : Int)
    (h : m id = none) :
    (∃ err, memoryRepository.GetPath m id = (m, ("", some err)) ∧
        errors.Is err .ErrNotFound = true) ∧
    (∃ err, pathService.GetPath MemoryRepository m id = (m, ("", some err)) ∧
        errors.Is err .ErrNotFound = true) ∧
    (∃ err, storageService.Get mainPathService
          { paths := m, fs := fs, projectRoot := root } id =
        ({ paths := m, fs := fs, projectRoot := root }, (File.zero, some err)) ∧
        errors.Is err .ErrNotFound = true) := by
  refine ⟨⟨.wrapf "" (.sentinel .ErrNotFound)
      (": " ++ ("path with id " ++ toString id ++ " not found")), ?_, ?_⟩,
    ⟨.wrapf ("failed retrieving ID " ++ toString id ++ ": ") (.sentinel .ErrNotFound) "",
      mainPathService_GetPath_none m id h, ?_⟩,
    ⟨.wrapf ("failed retrieving ID " ++ toString id ++ ": ") (.sentinel .ErrNotFound) "",
      ?_, ?_⟩⟩
  · simp [memoryRepository.GetPath, h]
  · simp [errors.Is]
  · simp [errors.Is]
  · simp only [storageService.Get, mainPathService_GetPath_none m id h]
  · simp [errors.Is]

theorem lookup_unregistered_not_found_witness :
    emptyBuffer 2 = none ∧
    (∃ err, memoryRepository.GetPath emptyBuffer 2 = (emptyBuffer, ("", some err)) ∧
        errors.Is err .ErrNotFound = true) ∧
    (∃ err, pathService.GetPath MemoryRepository emptyBuffer 2 =
          (emptyBuffer, ("", some err)) ∧
        errors.Is err .ErrNotFound = true) ∧
    (∃ err, storageService.Get mainPathService
          { paths := emptyBuffer, fs := emptyFS, projectRoot := "" } 2 =
        ({ paths := emptyBuffer, fs := emptyFS, projectRoot := "" },
          (File.zero, some err)) ∧
        errors.Is err .ErrNotFound = true) :=
  ⟨rfl, lookup_unregistered_not_found emptyBuffer emptyFS "" 2 rfl⟩

/-- C5: in every state of the memory repository, for every identifier and
path, `SavePath(id, p)` returns no error and afterwards `Exists(id)` returns
`(true, nil)` and `GetPath(id)` returns `(p, nil)`; a second
`SavePath(id, p2)` makes `GetPath(id)` return `p2`. -/
theorem savePath_then_exists_and_getPath (m : Buffer) (id : Int) (p : String) :
    (memoryRepository.SavePath m id p).2 = none ∧
    (memoryRepository.Exists (memoryRepository.SavePath m id p).1 id).2 = (true, none) ∧
    (memoryRepository.GetPath (memoryRepository.SavePath m id p).1 id).2 = (p, none) ∧
    ∀ p2 : String,
      (memoryRepository.GetPath
        (memoryRepository.SavePath (memoryRepository.SavePath m id p).1 id p2).1 id).2 =
        (p2, none) := by
  simp [memoryRepository.SavePath, memoryRepository.Exists, memoryRepository.GetPath]


/-- C6, evaluated where the registry cannot be written: `Upload` of `a.txt`
with content `hello` stores the file, `SavePath` fails, `Upload` returns that
error, and the file is still there with its five bytes; the calls made on the
backing store end with the close of the written file. -/
theorem upload_savePath_failure_keeps_content :
    (storageService.Upload failingSavePathService
      { paths := (), fs := emptyFS, projectRoot := "" } helloUpload).2 =
        some (.plainf "registry unavailable") ∧
    (storageService.Upload failingSavePathService
      { paths := (), fs := emptyFS, projectRoot := "" } helloUpload).1.fs.contentAt
        "files/a.txt" = some (bytesOf "hello") ∧
    (storageService.Upload failingSavePathService
      { paths := (), fs := emptyFS, projectRoot := "" } helloUpload).1.fs.calls =
        [.mkdirAll "files", .create "files/a.txt", .write "files/a.txt" 5,
         .close "files/a.txt"] := by
  refine ⟨by rfl, by rfl, by rfl⟩

/-- C7, evaluated on a registry entry whose location holds nothing: `Get`
asks the backing store for the status of the location once, never opens it,
and returns an error that wraps neither `errs.ErrinternalError` nor
`errs.ErrNotFound`. -/
theorem get_unreachable_error_unclassified :
    (storageService.Get mainPathService
      { paths := danglingBuffer, fs := emptyFS, projectRoot := "" } 7).2 =
        (File.zero, some (.plainf "file with ID 7 can't be reached at its path")) ∧
    errors.Is (.plainf "file with ID 7 can't be reached at its path")
      .ErrinternalError = false ∧
    errors.Is (.plainf "file with ID 7 can't be reached at its path")
      .ErrNotFound = false ∧
    (storageService.Get mainPathService
      { paths := danglingBuffer, fs := emptyFS, projectRoot := "" } 7).1.fs.calls =
        [.stat "files/gone.txt"] := by
  refine ⟨by rfl, by rfl, by rfl, by rfl⟩

/-- C8, evaluated on the scenario of the specification with an empty
`PROJECT_ROOT`: after the upload of `a.txt` under identifier 1 the
controller answers `GET /file/1` with status 200 and the header
`Content-Disposition: attachment; filename=files/a.txt`, the storage location
and not the uploaded filename. -/
theorem get_content_disposition_is_location :
    (StorageController.Get mainPathService exampleParseError worldAfterHello
      { idParam := some (.str "1") }).2.Status = 200 ∧
    (StorageController.Get mainPathService exampleParseError worldAfterHello
      { idParam := some (.str "1") }).2.header "Content-Disposition" =
        some "attachment; filename=files/a.txt" ∧
    (StorageController.Get mainPathService exampleParseError worldAfterHello
      { idParam := some (.str "1") }).2.header "Content-Disposition" ≠
        some ("attachment; filename=" ++ helloUpload.Filename) := by
  refine ⟨by decide, by decide, by decide⟩

/-- C9: for every readable, seekable file handle, whatever the length of the
file (empty and longer than 512 bytes included) and wherever the read offset
stands, `DetermineMIME` returns without error, the read offset is 0
afterwards, the bytes of the file are unmodified, and reading to the end of
the file yields the complete content. -/
theorem determineMIME_rewinds (file : File) (hr : file.readFault = none)
    (hs : file.seekFault = none) :
    (DetermineMIME file).1.2 = none ∧
    (DetermineMIME file).2.offset = 0 ∧
    (DetermineMIME file).2.data = file.data ∧
    (DetermineMIME file).2.ReadAll = (file.data, none) := by
  rw [determineMIME_of_readable file hr hs]
  simp [File.ReadAll, hr]

theorem determineMIME_rewinds_witness :
    bigFile.readFault = none ∧ bigFile.seekFault = none ∧
    (DetermineMIME bigFile).1.2 = none ∧
    (DetermineMIME bigFile).2.offset = 0 ∧
    (DetermineMIME bigFile).2.data = bigFile.data ∧
    (DetermineMIME bigFile).2.ReadAll = (bigFile.data, none) :=
  ⟨rfl, rfl, determineMIME_rewinds bigFile rfl rfl⟩

/-- C10 as stated fails: the file with the plain ASCII text `BMW is a car` is
classified `image/bmp`, not `text/plain; charset=utf-8`. -/
theorem plain_ascii_file_classified_bmp :
    isPlainASCII (bytesOf "BMW is a car") = true ∧
    (DetermineMIME (fileOf "files/car.txt" (bytesOf "BMW is a car"))).1 =
      ("image/bmp", none) ∧
    (DetermineMIME (fileOf "files/car.txt" (bytesOf "BMW is a car"))).1 ≠
      ("text/plain; charset=utf-8", none) := by
  refine ⟨by decide, by decide, by decide⟩

/-- C10, amended: on a readable, seekable handle at read offset 0
`DetermineMIME` returns `http.DetectContentType` of exactly the first
`min(512, length)` bytes of the file and ignores all later bytes; every file
that starts with the PNG signature yields `image/png`; and every file of plain
ASCII text yields `text/plain; charset=utf-8` unless one of the signatures
tried before the text rule matches its first bytes. -/
theorem determineMIME_sniffs_first_bytes (file : File) (hr : file.readFault = none)
    (hs : file.seekFault = none) (h0 : file.offset = 0) :
    (DetermineMIME file).1 = (http.DetectContentType (file.data.take 512), none) ∧
    (file.data.take 512).length = min 512 file.data.length ∧
    (∀ other : List Byte, other.take 512 = file.data.take 512 →
      (DetermineMIME { file with data := other }).1 = (DetermineMIME file).1) ∧
    (∀ rest : List Byte, file.data = pngSignature ++ rest →
      (DetermineMIME file).1 = ("image/png", none)) ∧
    (isPlainASCII file.data = true →
      (∀ sig ∈ precedingSignatures,
        sig.match_ (file.data.take 512) (firstNonWS (file.data.take 512)) = "") →
      (DetermineMIME file).1 = ("text/plain; charset=utf-8", none)) := by
  have hmain : (DetermineMIME file).1 = (http.DetectContentType (file.data.take 512), none) := by
    rw [determineMIME_of_readable file hr hs, h0]
    simp
  refine ⟨hmain, by simp, ?_, ?_, ?_⟩
  · intro other hsame
    rw [hmain, determineMIME_of_readable { file with data := other } hr hs]
    simp only [h0, List.drop_zero, hsame]
  · intro rest hpng
    rw [hmain, detect_take, hpng, detect_png]
  · intro hplain hnone
    rw [hmain, detect_take, detect_plain_text file.data hplain hnone]

theorem determineMIME_sniffs_first_bytes_witness :
    (fileOf "files/a.txt" (bytesOf "hello")).readFault = none ∧
    (fileOf "files/a.txt" (bytesOf "hello")).seekFault = none ∧
    (fileOf "files/a.txt" (bytesOf "hello")).offset = 0 ∧
    isPlainASCII (fileOf "files/a.txt" (bytesOf "hello")).data = true ∧
    (∀ sig ∈ precedingSignatures,
      sig.match_ ((fileOf "files/a.txt" (bytesOf "hello")).data.take 512)
        (firstNonWS ((fileOf "files/a.txt" (bytesOf "hello")).data.take 512)) = "") ∧
    (DetermineMIME (fileOf "files/a.txt" (bytesOf "hello"))).1 =
      ("text/plain; charset=utf-8", none) :=
  ⟨rfl, rfl, rfl, by decide, by decide,
    (determineMIME_sniffs_first_bytes (fileOf "files/a.txt" (bytesOf "hello"))
      rfl rfl rfl).2.2.2.2 (by decide) (by decide)⟩

/-- C11: idempotence of retrieval.  `storageService.Get`, and the controller's
`Get` that sniffs the MIME type after it, change neither the registry nor the
stored content.  So after a successful `Upload` the `Get` for its identifier
that follows any number `n` of earlier such `Get` calls succeeds and returns a
handle at offset 0 whose bytes are those of the uploaded stream; sniffing that
handle succeeds and leaves it at offset 0 with the same bytes. -/
theorem repeated_get_returns_content (w : World Buffer) (data : UploadData) (n : Nat)
    (hok : (storageService.Upload mainPathService w data).2 = none) :
    (∀ (v : World Buffer) (j : Int),
      (storageService.Get mainPathService v j).1.paths = v.paths ∧
      (storageService.Get mainPathService v j).1.fs.nodes = v.fs.nodes) ∧
    (∀ (parseError : GoError → Response) (v : World Buffer) (req : Request),
      (StorageController.Get mainPathService parseError v req).1.paths = v.paths ∧
      (StorageController.Get mainPathService parseError v req).1.fs.nodes = v.fs.nodes) ∧
    ∃ file : File,
      (storageService.Get mainPathService
        (getRepeatedly mainPathService data.Id n
          (storageService.Upload mainPathService w data).1) data.Id).2 = (file, none) ∧
      file.offset = 0 ∧ file.ReadAll = (data.File.data, none) ∧
      (DetermineMIME file).1.2 = none ∧
      (DetermineMIME file).2.offset = 0 ∧
      (DetermineMIME file).2.ReadAll = (data.File.data, none) := by
  refine ⟨fun v j => ⟨(get_preserves_main v j).1, (get_preserves_main v j).2.1⟩,
    controller_get_preserves_main, ?_⟩
  rcases hup : storageService.Upload mainPathService w data with ⟨w1, e⟩
  rw [hup] at hok
  simp only at hok
  subst hok
  obtain ⟨-, dest, -, hp, -, hn⟩ := upload_success_main w w1 data hup
  obtain ⟨hp2, hn2⟩ := getRepeatedly_preserves_main data.Id n w1
  simp only
  rcases hw : getRepeatedly mainPathService data.Id n w1 with ⟨m, fs, root⟩
  rw [hw] at hp2 hn2
  simp only at hp2 hn2
  have hreg : m data.Id = some dest := by rw [hp2, hp]; simp
  have hfile : fs.nodes dest = some (.file data.File.data true) := by rw [hn2, hn]
  refine ⟨_, get_registered_file m fs root data.Id dest data.File.data hreg hfile, rfl,
    by simp [File.ReadAll], ?_⟩
  have hd := determineMIME_of_readable
    { name := dest, data := data.File.data, offset := 0, readFault := none,
      seekFault := none } rfl rfl
  rw [hd]
  simp [File.ReadAll]

theorem repeated_get_returns_content_witness :
    (storageService.Upload mainPathService (freshWorld "") helloUpload).2 = none ∧
    ∃ file : File,
      (storageService.Get mainPathService
        (getRepeatedly mainPathService helloUpload.Id 3
          (storageService.Upload mainPathService (freshWorld "") helloUpload).1)
        helloUpload.Id).2 = (file, none) ∧
      file.offset = 0 ∧ file.ReadAll = (helloUpload.File.data, none) ∧
      (DetermineMIME file).1.2 = none ∧
      (DetermineMIME file).2.offset = 0 ∧
      (DetermineMIME file).2.ReadAll = (helloUpload.File.data, none) :=
  ⟨rfl, (repeated_get_returns_content (freshWorld "") helloUpload 3 rfl).2.2⟩

/-- C12: registered is terminal.  When an identifier has a registry entry with
location `loc`, it still has that entry with that location after any finite
sequence of `Upload` and `Get` calls, whatever their identifiers, filenames
and streams and whether they succeed or fail; and an `Upload` leaves the
registry as it was or adds one entry for its identifier, which had none. -/
theorem registered_entry_is_terminal (w : World Buffer) (id : Int) (loc : String)
    (calls : List ServiceCall) (h : w.paths id = some loc) :
    (runCalls mainPathService calls w).paths id = some loc ∧
    ∀ (v : World Buffer) (data : UploadData),
      (storageService.Upload mainPathService v data).1.paths = v.paths ∨
      (v.paths data.Id = none ∧
        ∃ dest : String, (storageService.Upload mainPathService v data).1.paths =
          fun k => if k = data.Id then some dest else v.paths k) := by
  refine ⟨?_, upload_registry_change⟩
  induction calls generalizing w with
  | nil => exact h
  | cons c rest ih => exact ih (c.run mainPathService w) (call_keeps_entry w c id loc h)

theorem registered_entry_is_terminal_witness :
    worldAfterHello.paths 1 = some "files/a.txt" ∧
    (runCalls mainPathService
      [.upload { File := streamOf "world", Filename := "b.txt", Id := 1 }, .get 1,
       .upload worldUpload, .get 2, .get 5] worldAfterHello).paths 1 = some "files/a.txt" :=
  ⟨rfl, (registered_entry_is_terminal worldAfterHello 1 "files/a.txt"
    [.upload { File := streamOf "world", Filename := "b.txt", Id := 1 }, .get 1,
     .upload worldUpload, .get 2, .get 5] rfl).1⟩

/-- C13: filename collision.  For distinct unregistered identifiers `id1` and
`id2`, every filename `f` and all streams `s1`, `s2`: when `Upload(id1, f, s1)`
and then `Upload(id2, f, s2)` both succeed, the registry maps both identifiers
to the one location `<root>/files/f` (joined and cleaned), and `Get(id1)`
afterwards succeeds with the bytes of `s2`; these are not the bytes of `s1`
when the two streams differ. -/
theorem same_filename_uploads_collide (w w1 w2 : World Buffer) (id1 id2 : Int)
    (f : String) (s1 s2 : Stream) (hne : id1 ≠ id2)
    (hfree1 : w.paths id1 = none) (hfree2 : w.paths id2 = none)
    (hup1 : storageService.Upload mainPathService w
      { File := s1, Filename := f, Id := id1 } = (w1, none))
    (hup2 : storageService.Upload mainPathService w1
      { File := s2, Filename := f, Id := id2 } = (w2, none)) :
    w2.paths id1 = some (filepath.Join [filepath.Join [w.projectRoot, "files"], f]) ∧
    w2.paths id2 = some (filepath.Join [filepath.Join [w.projectRoot, "files"], f]) ∧
    ∃ file : File,
      (storageService.Get mainPathService w2 id1).2 = (file, none) ∧
      file.offset = 0 ∧ file.ReadAll = (s2.data, none) ∧
      (s1.data ≠ s2.data → file.ReadAll ≠ (s1.data, none)) := by
  have _ := hfree1
  have _ := hfree2
  obtain ⟨-, d1, hd1, hp1, hr1, -⟩ := upload_success_main w w1 _ hup1
  obtain ⟨-, d2, hd2, hp2, -, hn2⟩ := upload_success_main w1 w2 _ hup2
  simp only at hd1 hp1 hd2 hp2 hn2
  rw [hr1] at hd2
  subst hd1
  subst hd2
  have hreg1 : w2.paths id1 =
      some (filepath.Join [filepath.Join [w.projectRoot, "files"], f]) := by
    rw [hp2, hp1]
    simp [hne]
  have hreg2 : w2.paths id2 =
      some (filepath.Join [filepath.Join [w.projectRoot, "files"], f]) := by
    rw [hp2]
    simp
  refine ⟨hreg1, hreg2, ?_⟩
  obtain ⟨m, fs, root⟩ := w2
  simp only at hreg1 hn2
  refine ⟨_, get_registered_file m fs root id1 _ s2.data hreg1 hn2, rfl,
    by simp [File.ReadAll], ?_⟩
  intro hdiff heq
  simp only [File.ReadAll, List.drop_zero, Prod.mk.injEq, and_true] at heq
  exact hdiff heq.symm

theorem same_filename_uploads_collide_witness :
    (1 : Int) ≠ 2 ∧ (freshWorld "/srv").paths 1 = none ∧ (freshWorld "/srv").paths 2 = none ∧
    storageService.Upload mainPathService (freshWorld "/srv")
      { File := streamOf "hello", Filename := "a.txt", Id := 1 } =
      ((storageService.Upload mainPathService (freshWorld "/srv") helloUpload).1, none) ∧
    storageService.Upload mainPathService
      (storageService.Upload mainPathService (freshWorld "/srv") helloUpload).1
      { File := streamOf "world", Filename := "a.txt", Id := 2 } =
      ((storageService.Upload mainPathService
        (storageService.Upload mainPathService (freshWorld "/srv") helloUpload).1
        worldUpload).1, none) ∧
    (storageService.Upload mainPathService
      (storageService.Upload mainPathService (freshWorld "/srv") helloUpload).1
      worldUpload).1.paths 1 = some "/srv/files/a.txt" ∧
    (storageService.Upload mainPathService
      (storageService.Upload mainPathService (freshWorld "/srv") helloUpload).1
      worldUpload).1.paths 2 = some "/srv/files/a.txt" ∧
    ∃ file : File,
      (storageService.Get mainPathService
        (storageService.Upload mainPathService
          (storageService.Upload mainPathService (freshWorld "/srv") helloUpload).1
          worldUpload).1 1).2 = (file, none) ∧
      file.offset = 0 ∧ file.ReadAll = ((streamOf "world").data, none) ∧
      ((streamOf "hello").data ≠ (streamOf "world").data →
        file.ReadAll ≠ ((streamOf "hello").data, none)) :=
  ⟨by decide, rfl, rfl, rfl, rfl,
    same_filename_uploads_collide (freshWorld "/srv") _ _ 1 2 "a.txt" (streamOf "hello")
      (streamOf "world") (by decide) rfl rfl rfl rfl⟩

end DmsStorage
